import Mathlib

/-!
Verification of the instruction-dispatch and account-mutation logic of the
example on-chain program in `src/program-rust/src/lib.rs`.

Shallow embedding conventions:
* Byte buffers are `List Nat` (each element a byte value).
* Public keys (`Pubkey`) are abstracted as `Nat`: the program only ever
  compares them for equality and feeds their raw bytes to the (external)
  address-derivation routine, whose result is unused except as signing
  material for the delegated call, which is itself abstracted.
* Machine integers are `Nat` with explicit `% 2 ^ 32` where u32 overflow
  matters (`counter += 1` wraps in a release build).
* The host's delegated-call facility (`invoke_signed` of a system `allocate`
  instruction) is external to this repository; it is threaded through as an
  explicit oracle parameter, as §9 of the design notes prescribes.  On
  success the oracle yields the allocation-target account's new data; on
  failure its error is propagated verbatim by the `?` operator in the source.
* A processing call returns the (possibly updated) account list together
  with a `ProgramResult`.  On an error every account is returned unchanged:
  in the source, every fallible step of each branch happens before the
  single write, and the host reverts all writes of a failed invocation.
-/

/-- `ProgramError` variants the program can surface, plus `External` for
failures propagated verbatim from the delegated call. -/
inductive ProgramError where
  | InvalidInstructionData : ProgramError
  | IncorrectProgramId : ProgramError
  | NotEnoughAccountKeys : ProgramError
  | BorshIoError : ProgramError
  | External : Nat → ProgramError
deriving DecidableEq, Repr

/-- `ProgramResult = Result<(), ProgramError>` from the source. -/
abbrev ProgramResult := Except ProgramError Unit

/-- `pub const SIZE: usize = 42;` — bytes requested from the allocate call. -/
def SIZE : Nat := 42

/-- An account handle: key, owning program, funding balance and data buffer.
Embeds the fields of `AccountInfo` that the program reads or writes. -/
structure AccountInfo where
  key : Nat
  owner : Nat
  lamports : Nat
  data : List Nat
deriving DecidableEq, Repr

/-- `GreetingAccount { counter: u32 }` — the persisted account record. -/
structure GreetingAccount where
  counter : Nat
deriving DecidableEq, Repr

/-- Value of a byte list read as a little-endian unsigned integer
(first byte least significant), as `u64::from_le_bytes` /
`u32::from_le_bytes` do on their fixed-size inputs. -/
def leVal (bs : List Nat) : Nat :=
  bs.foldr (fun b acc => b + 256 * acc) 0

/-- The four little-endian bytes of a u32 value, as borsh serializes
`counter`. -/
def u32ToLeBytes (n : Nat) : List Nat :=
  [n % 256, n / 256 % 256, n / 256 ^ 2 % 256, n / 256 ^ 3 % 256]

/-- `SolanaInstruction` — the three decoded instruction variants. -/
inductive SolanaInstruction where
  | ExampleInstruction : Nat → SolanaInstruction
  | CPIInstruction : SolanaInstruction
  | TransferInstruction : Nat → SolanaInstruction
deriving DecidableEq, Repr

namespace SolanaInstruction

/-- `SolanaInstruction::unpack_amount`: take the first 8 bytes as a
little-endian u64, or fail with `InvalidInstructionData` when fewer than 8
bytes remain (`input.get(..8)` is `None`). -/
def unpack_amount (input : List Nat) : Except ProgramError Nat :=
  if 8 ≤ input.length then .ok (leVal (input.take 8))
  else .error .InvalidInstructionData

/-- `SolanaInstruction::unpack`: split off the tag byte (empty input fails
with `InvalidInstructionData`), then tag 0 → Example, 1 → CPI, 2 → Transfer,
anything else fails with `InvalidInstructionData`. -/
def unpack (input : List Nat) : Except ProgramError SolanaInstruction :=
  match input with
  | [] => .error .InvalidInstructionData
  | tag :: rest =>
    match tag with
    | 0 => (unpack_amount rest).map fun amount => ExampleInstruction amount
    | 1 => .ok CPIInstruction
    | 2 => (unpack_amount rest).map fun amount => TransferInstruction amount
    | _ + 3 => .error .InvalidInstructionData

/-- Whether a decoded instruction is the Transfer variant. -/
def isTransfer : SolanaInstruction → Bool
  | TransferInstruction _ => true
  | _ => false

end SolanaInstruction

/-- `GreetingAccount::try_from_slice` (borsh): read `counter` as a
little-endian u32 from the first 4 bytes and require the whole slice to be
consumed, so exactly 4 bytes; anything else is a deserialization failure
(surfaced as `BorshIoError`). -/
def GreetingAccount.try_from_slice (data : List Nat) :
    Except ProgramError GreetingAccount :=
  if data.length = 4 then .ok ⟨leVal data⟩ else .error .BorshIoError

/-- `greeting_account.serialize(&mut &mut account.data.borrow_mut()[..])`:
write the 4 little-endian bytes of `counter` over the start of the buffer,
leaving any remaining bytes; fails when the buffer is shorter than 4 bytes
(`write_all` on a too-short `&mut [u8]`; unreachable in the program since it
only runs after `try_from_slice` succeeded on the same buffer). -/
def GreetingAccount.serializeInto (g : GreetingAccount) (data : List Nat) :
    Except ProgramError (List Nat) :=
  if 4 ≤ data.length then .ok (u32ToLeBytes g.counter ++ data.drop 4)
  else .error .BorshIoError

/-- The stored counter of an account, when its data deserializes. -/
def storedCounter (a : AccountInfo) : Option Nat :=
  match GreetingAccount.try_from_slice a.data with
  | .ok g => some g.counter
  | .error _ => none

/-- Oracle for the host's delegated allocate facility: given the allocation
target's key and the requested size, either fail (the error is propagated
verbatim) or succeed, yielding the allocation target's new data buffer. -/
abbrev CpiOracle := Nat → Nat → Except ProgramError (List Nat)

/-- `process_transfer`: ignores its arguments and returns `Ok(())`. -/
def process_transfer (accounts : List AccountInfo) (_amount : Nat)
    (_program_id : Nat) : List AccountInfo × ProgramResult :=
  (accounts, .ok ())

/-- `process_example`: take the first account (`next_account_info`, failing
with `NotEnoughAccountKeys` on an empty list); `find_program_address` is
computed but its result is unused, so it is omitted here; fail with
`IncorrectProgramId` unless the account's owner equals `program_id`;
deserialize the record, increment `counter` (u32, wrapping), serialize it
back.  The `amount` payload is never used. -/
def process_example (accounts : List AccountInfo) (_amount : Nat)
    (program_id : Nat) : List AccountInfo × ProgramResult :=
  match accounts with
  | [] => (accounts, .error .NotEnoughAccountKeys)
  | account :: rest =>
    if account.owner ≠ program_id then
      (accounts, .error .IncorrectProgramId)
    else
      match GreetingAccount.try_from_slice account.data with
      | .error e => (accounts, .error e)
      | .ok g =>
        match GreetingAccount.serializeInto ⟨(g.counter + 1) % 2 ^ 32⟩
            account.data with
        | .error e => (accounts, .error e)
        | .ok newData => ({ account with data := newData } :: rest, .ok ())

/-- `process_cpi`: take the target account and the allocation-target account
(each `next_account_info` failing with `NotEnoughAccountKeys`); derive the
program address (result feeds only the signing seeds of the delegated call,
which the oracle abstracts); invoke the allocate facility for
`allocated_info.key` with `SIZE` bytes, propagating its failure verbatim
(`?`); then the same ownership check, increment and re-serialization of the
target account as in `process_example`. -/
def process_cpi (cpi : CpiOracle) (accounts : List AccountInfo)
    (program_id : Nat) : List AccountInfo × ProgramResult :=
  match accounts with
  | [] => (accounts, .error .NotEnoughAccountKeys)
  | [_] => (accounts, .error .NotEnoughAccountKeys)
  | account :: allocated_info :: rest =>
    match cpi allocated_info.key SIZE with
    | .error e => (accounts, .error e)
    | .ok newAllocData =>
      if account.owner ≠ program_id then
        (accounts, .error .IncorrectProgramId)
      else
        match GreetingAccount.try_from_slice account.data with
        | .error e => (accounts, .error e)
        | .ok g =>
          match GreetingAccount.serializeInto ⟨(g.counter + 1) % 2 ^ 32⟩
              account.data with
          | .error e => (accounts, .error e)
          | .ok newData =>
            ({ account with data := newData }
              :: { allocated_info with data := newAllocData } :: rest, .ok ())

/-- `process_instruction` — the entry point: decode the buffer (propagating
the decode error), then dispatch to the matching branch. -/
def process_instruction (cpi : CpiOracle) (program_id : Nat)
    (accounts : List AccountInfo) (instruction_data : List Nat) :
    List AccountInfo × ProgramResult :=
  match SolanaInstruction.unpack instruction_data with
  | .error e => (accounts, .error e)
  | .ok (.ExampleInstruction amount) => process_example accounts amount program_id
  | .ok .CPIInstruction => process_cpi cpi accounts program_id
  | .ok (.TransferInstruction amount) => process_transfer accounts amount program_id

/-- A delegated-call oracle that always succeeds, leaving the allocation
target resized to `SIZE` zero bytes. -/
def cpiAllocOk : CpiOracle := fun _ _ => .ok (List.replicate SIZE 0)

/-- A delegated-call oracle that always fails with external error 7. -/
def cpiAllocFail : CpiOracle := fun _ _ => .error (.External 7)

/-- Concrete account for witnesses: counter 5, owner 0, 4-byte data. -/
def acctFive : AccountInfo := ⟨11, 0, 100, [5, 0, 0, 0]⟩

/-- Concrete account whose stored counter is the u32 maximum 4294967295. -/
def acctMax : AccountInfo := ⟨11, 0, 100, [255, 255, 255, 255]⟩

/-- Concrete account with a 5-byte data buffer (counter bytes plus one). -/
def acctWide : AccountInfo := ⟨11, 0, 100, [5, 0, 0, 0, 9]⟩

/-- Concrete account owned by program 1, stored counter 5. -/
def acctForeign : AccountInfo := ⟨11, 1, 100, [5, 0, 0, 0]⟩

/-! ## Decoder claims -/

/-- C2: for every byte buffer of length at least 9 whose first byte is 0 or
2, decoding succeeds and produces the Example (tag 0) or Transfer (tag 2)
variant whose amount is the 64-bit unsigned integer encoded little-endian in
bytes 1 through 8 of the buffer. -/
theorem unpack_tag02_ok (b : Nat) (rest : List Nat) (hb : b = 0 ∨ b = 2)
    (hlen : 8 ≤ rest.length) :
    SolanaInstruction.unpack (b :: rest) =
      .ok (if b = 0 then .ExampleInstruction (leVal (rest.take 8))
           else .TransferInstruction (leVal (rest.take 8))) := by
  rcases hb with hb | hb <;> subst hb <;>
    simp [SolanaInstruction.unpack, SolanaInstruction.unpack_amount, hlen,
      Except.map]

/-- Witness for C2 at a concrete tag-0 buffer of length 9. -/
theorem unpack_tag02_ok_witness :
    SolanaInstruction.unpack [0, 1, 2, 3, 4, 5, 6, 7, 8] =
      .ok (if (0 : Nat) = 0
        then .ExampleInstruction (leVal ([1, 2, 3, 4, 5, 6, 7, 8].take 8))
        else .TransferInstruction (leVal ([1, 2, 3, 4, 5, 6, 7, 8].take 8))) :=
  unpack_tag02_ok 0 [1, 2, 3, 4, 5, 6, 7, 8] (Or.inl rfl) (by decide)

/-- C3: decoding fails with `InvalidInstructionData` exactly when the input
is empty, or the first byte is not 0, 1 or 2, or the first byte is 0 or 2
and fewer than 8 bytes follow it. -/
theorem unpack_invalid_iff (input : List Nat) :
    SolanaInstruction.unpack input = .error .InvalidInstructionData ↔
      (input = [] ∨
       (∃ t rest, input = t :: rest ∧ t ≠ 0 ∧ t ≠ 1 ∧ t ≠ 2) ∨
       (∃ t rest, input = t :: rest ∧ (t = 0 ∨ t = 2) ∧ rest.length < 8)) := by
  match input with
  | [] => simp [SolanaInstruction.unpack]
  | 0 :: rest =>
    by_cases h : 8 ≤ rest.length
    · apply iff_of_false
      · simp [SolanaInstruction.unpack, SolanaInstruction.unpack_amount, h,
          Except.map]
      · rintro (hc | ⟨t, r, ht, h0, _, _⟩ | ⟨t, r, ht, _, hlt⟩)
        · simp at hc
        · rw [List.cons.injEq] at ht
          exact h0 ht.1.symm
        · rw [List.cons.injEq] at ht
          rcases ht with ⟨_, h2⟩
          subst h2
          omega
    · apply iff_of_true
      · simp [SolanaInstruction.unpack, SolanaInstruction.unpack_amount, h,
          Except.map]
      · exact Or.inr (Or.inr ⟨0, rest, rfl, Or.inl rfl, by omega⟩)
  | 1 :: rest =>
    apply iff_of_false
    · simp [SolanaInstruction.unpack]
    · rintro (hc | ⟨t, r, ht, _, h1, _⟩ | ⟨t, r, ht, ht02, _⟩)
      · simp at hc
      · rw [List.cons.injEq] at ht
        exact h1 ht.1.symm
      · rw [List.cons.injEq] at ht
        rcases ht with ⟨h1', _⟩
        rcases ht02 with rfl | rfl <;> omega
  | 2 :: rest =>
    by_cases h : 8 ≤ rest.length
    · apply iff_of_false
      · simp [SolanaInstruction.unpack, SolanaInstruction.unpack_amount, h,
          Except.map]
      · rintro (hc | ⟨t, r, ht, _, _, h2⟩ | ⟨t, r, ht, _, hlt⟩)
        · simp at hc
        · rw [List.cons.injEq] at ht
          exact h2 ht.1.symm
        · rw [List.cons.injEq] at ht
          rcases ht with ⟨_, hr⟩
          subst hr
          omega
    · apply iff_of_true
      · simp [SolanaInstruction.unpack, SolanaInstruction.unpack_amount, h,
          Except.map]
      · exact Or.inr (Or.inr ⟨2, rest, rfl, Or.inr rfl, by omega⟩)
  | (n + 3) :: rest =>
    apply iff_of_true
    · rfl
    · exact Or.inr (Or.inl ⟨n + 3, rest, rfl, by omega, by omega, by omega⟩)

/-- C10: every buffer whose first byte is 1 decodes to the CrossProgramInvoke
variant, regardless of trailing bytes. -/
theorem unpack_tag1_ok (rest : List Nat) :
    SolanaInstruction.unpack (1 :: rest) = .ok .CPIInstruction := rfl

/-! ## Helper lemmas -/

/-- Reading back the 4 serialized little-endian bytes of `m` recovers
`m % 2 ^ 32`. -/
theorem leVal_u32ToLeBytes (m : Nat) : leVal (u32ToLeBytes m) = m % 2 ^ 32 := by
  have h2 : (256 : Nat) ^ 2 = 65536 := by norm_num
  have h3 : (256 : Nat) ^ 3 = 16777216 := by norm_num
  have h32 : (2 : Nat) ^ 32 = 4294967296 := by norm_num
  simp only [leVal, u32ToLeBytes, List.foldr, h2, h3, h32]
  omega

/-- A successful deserialization pins the buffer to exactly 4 bytes and the
record to their little-endian value. -/
theorem try_from_slice_ok {data : List Nat} {g : GreetingAccount}
    (h : GreetingAccount.try_from_slice data = .ok g) :
    data.length = 4 ∧ g = ⟨leVal data⟩ := by
  by_cases hl : data.length = 4
  · simp only [GreetingAccount.try_from_slice, if_pos hl, Except.ok.injEq] at h
    exact ⟨hl, h.symm⟩
  · simp only [GreetingAccount.try_from_slice, if_neg hl] at h
    cases h

/-! ## Example-instruction claims -/

/-- C1 (amended): for every account list whose first account's owner equals
the program identity and whose data deserializes to a record with counter
`N`, with `N + 1` representable as a u32 (`N + 1 < 2 ^ 32`), processing an
Example instruction succeeds and the stored counter afterwards is `N + 1`.
(At `N = 2 ^ 32 - 1` the u32 increment wraps instead, see the
counterexample.) -/
theorem process_example_increments (pid amount N : Nat) (a : AccountInfo)
    (rest : List AccountInfo)
    (hown : a.owner = pid)
    (hde : GreetingAccount.try_from_slice a.data = .ok ⟨N⟩)
    (hN : N + 1 < 2 ^ 32) :
    process_example (a :: rest) amount pid =
      ({ a with data := u32ToLeBytes (N + 1) } :: rest, .ok ()) ∧
    storedCounter { a with data := u32ToLeBytes (N + 1) } = some (N + 1) := by
  obtain ⟨hlen, -⟩ := try_from_slice_ok hde
  have hdrop : a.data.drop 4 = [] := by
    rw [← hlen]; exact List.drop_length a.data
  have hlen4 : (u32ToLeBytes (N + 1)).length = 4 := rfl
  have h32 : (2 : Nat) ^ 32 = 4294967296 := by norm_num
  rw [h32] at hN
  have hmod : (N + 1) % 4294967296 = N + 1 := Nat.mod_eq_of_lt hN
  constructor
  · simp [process_example, hown, hde, GreetingAccount.serializeInto, hlen,
      hdrop, h32, hmod]
  · simp [storedCounter, GreetingAccount.try_from_slice, hlen4,
      leVal_u32ToLeBytes, h32, hmod]

/-- Witness for C1 at a concrete account with stored counter 5. -/
theorem process_example_increments_witness :
    process_example [acctFive] 0 0 =
      ([{ acctFive with data := u32ToLeBytes 6 }], .ok ()) ∧
    storedCounter { acctFive with data := u32ToLeBytes 6 } = some 6 :=
  process_example_increments 0 0 5 acctFive [] rfl rfl (by norm_num)

/-- C1 counterexample: at stored counter 4294967295 (the u32 maximum) with
correct owner, processing succeeds but the stored counter wraps to 0
rather than becoming N + 1 = 4294967296. -/
theorem process_example_wrap_cex :
    acctMax.owner = (0 : Nat) ∧
    GreetingAccount.try_from_slice acctMax.data = .ok ⟨4294967295⟩ ∧
    process_example [acctMax] 0 0 =
      ([{ acctMax with data := [0, 0, 0, 0] }], .ok ()) ∧
    storedCounter { acctMax with data := [0, 0, 0, 0] } = some 0 ∧
    (0 : Nat) ≠ 4294967295 + 1 :=
  ⟨rfl, rfl, rfl, rfl, by decide⟩

/-- C4: for every account whose owner differs from the program identity,
processing an Example instruction targeting it fails with
`IncorrectProgramId` and every account's stored bytes are unchanged. -/
theorem process_example_wrong_owner (pid amount : Nat) (a : AccountInfo)
    (rest : List AccountInfo) (h : a.owner ≠ pid) :
    process_example (a :: rest) amount pid =
      (a :: rest, .error .IncorrectProgramId) := by
  simp [process_example, h]

/-- Witness for C4: an account owned by program 1 processed under program
identity 0. -/
theorem process_example_wrong_owner_witness :
    process_example [acctForeign] 0 0 =
      ([acctForeign], .error .IncorrectProgramId) :=
  process_example_wrong_owner 0 0 acctForeign [] (by decide)

/-- C5: for every amount and every account list, processing a Transfer
instruction returns success and leaves every account byte-for-byte
unchanged. -/
theorem process_transfer_noop (accounts : List AccountInfo)
    (amount pid : Nat) :
    process_transfer accounts amount pid = (accounts, .ok ()) := rfl

/-- C8: two Example instructions differing only in their 8-byte amount
payload yield the same result and the same final account state under the
same program identity and account state. -/
theorem process_example_amount_independent (cpi : CpiOracle) (pid : Nat)
    (accounts : List AccountInfo) (p q : List Nat)
    (hp : p.length = 8) (hq : q.length = 8) :
    process_instruction cpi pid accounts (0 :: p) =
      process_instruction cpi pid accounts (0 :: q) := by
  have h8p : 8 ≤ p.length := by omega
  have h8q : 8 ≤ q.length := by omega
  simp only [process_instruction, SolanaInstruction.unpack,
    SolanaInstruction.unpack_amount, if_pos h8p, if_pos h8q, Except.map]
  rfl

/-- Witness for C8 at two payloads decoding to different amounts. -/
theorem process_example_amount_independent_witness :
    process_instruction cpiAllocOk 0 [acctFive]
        (0 :: [1, 1, 1, 1, 1, 1, 1, 1]) =
      process_instruction cpiAllocOk 0 [acctFive]
        (0 :: [2, 2, 2, 2, 2, 2, 2, 2]) :=
  process_example_amount_independent cpiAllocOk 0 [acctFive]
    [1, 1, 1, 1, 1, 1, 1, 1] [2, 2, 2, 2, 2, 2, 2, 2] (by decide) (by decide)

/-- C9 (amended): for every correctly-owned account whose data buffer is
exactly 4 bytes long, processing an Example instruction succeeds, the
record being read as a little-endian 32-bit unsigned integer from those 4
bytes.  (A buffer longer than 4 bytes — e.g. the 42 bytes of the allocation
call — fails deserialization instead, see the counterexample.) -/
theorem process_example_len4 (pid amount : Nat) (a : AccountInfo)
    (rest : List AccountInfo) (hown : a.owner = pid)
    (hlen : a.data.length = 4) :
    storedCounter a = some (leVal a.data) ∧
    (process_example (a :: rest) amount pid).2 = .ok () := by
  have hdrop : a.data.drop 4 = [] := by
    rw [← hlen]; exact List.drop_length a.data
  constructor
  · simp [storedCounter, GreetingAccount.try_from_slice, hlen]
  · simp [process_example, hown, GreetingAccount.try_from_slice, hlen,
      GreetingAccount.serializeInto, hdrop]

/-- Witness for C9 at a concrete correctly-owned 4-byte account. -/
theorem process_example_len4_witness :
    storedCounter acctFive = some (leVal acctFive.data) ∧
    (process_example [acctFive] 3 0).2 = .ok () :=
  process_example_len4 0 3 acctFive [] rfl rfl

/-- C9 counterexample: a correctly-owned account whose buffer is 5 bytes
(≥ 4) fails deserialization with `BorshIoError` instead of succeeding. -/
theorem process_example_len5_cex :
    acctWide.owner = (0 : Nat) ∧ 4 ≤ acctWide.data.length ∧
    process_example [acctWide] 0 0 = ([acctWide], .error .BorshIoError) :=
  ⟨rfl, by decide, rfl⟩

/-! ## CrossProgramInvoke and the counter invariant -/

/-- C6: when the delegated allocation call fails, processing a
CrossProgramInvoke instruction returns that failure unmodified and every
account — in particular the target's counter — is unchanged. -/
theorem process_cpi_alloc_fail (cpi : CpiOracle) (pid : Nat)
    (a b : AccountInfo) (rest : List AccountInfo) (e : ProgramError)
    (h : cpi b.key SIZE = .error e) :
    process_cpi cpi (a :: b :: rest) pid = (a :: b :: rest, .error e) := by
  simp [process_cpi, h]

/-- Witness for C6 with an oracle that always fails with external error 7. -/
theorem process_cpi_alloc_fail_witness :
    process_cpi cpiAllocFail [acctFive, acctForeign] 0 =
      ([acctFive, acctForeign], .error (.External 7)) :=
  process_cpi_alloc_fail cpiAllocFail 0 acctFive acctForeign []
    (.External 7) rfl

/-- Exhaustive behaviour of `process_example` on a nonempty account list:
either it fails and returns every account unchanged, or it succeeds and
replaces the target's counter `N` by `(N + 1) % 2 ^ 32`, all other accounts
unchanged. -/
theorem process_example_cases (amount pid : Nat) (a : AccountInfo)
    (rest : List AccountInfo) :
    (∃ e, process_example (a :: rest) amount pid = (a :: rest, .error e)) ∨
    (∃ N, storedCounter a = some N ∧
      process_example (a :: rest) amount pid =
        ({ a with data := u32ToLeBytes ((N + 1) % 2 ^ 32) } :: rest,
          .ok ())) := by
  by_cases hown : a.owner = pid
  · cases hde : GreetingAccount.try_from_slice a.data with
    | error e =>
      left
      exact ⟨e, by simp [process_example, hown, hde]⟩
    | ok g =>
      obtain ⟨hlen, hg⟩ := try_from_slice_ok hde
      have hdrop : a.data.drop 4 = [] := by
        rw [← hlen]; exact List.drop_length a.data
      right
      refine ⟨g.counter, by simp [storedCounter, hde], ?_⟩
      simp [process_example, hown, hde, GreetingAccount.serializeInto, hlen,
        hdrop]
  · left
    exact ⟨.IncorrectProgramId, by simp [process_example, hown]⟩

/-- Exhaustive behaviour of `process_cpi` on a nonempty account list: either
it fails and returns every account unchanged, or it succeeds and the target
(first) account's counter `N` becomes `(N + 1) % 2 ^ 32` (the allocation
target's data is whatever the delegated call produced). -/
theorem process_cpi_cases (cpi : CpiOracle) (pid : Nat) (a : AccountInfo)
    (rest : List AccountInfo) :
    (∃ e, process_cpi cpi (a :: rest) pid = (a :: rest, .error e)) ∨
    (∃ N, storedCounter a = some N ∧
      (process_cpi cpi (a :: rest) pid).2 = .ok () ∧
      (process_cpi cpi (a :: rest) pid).1.head? =
        some { a with data := u32ToLeBytes ((N + 1) % 2 ^ 32) }) := by
  match rest with
  | [] =>
    left
    exact ⟨.NotEnoughAccountKeys, by simp [process_cpi]⟩
  | b :: rest' =>
    cases hcpi : cpi b.key SIZE with
    | error e =>
      left
      exact ⟨e, by simp [process_cpi, hcpi]⟩
    | ok newAllocData =>
      by_cases hown : a.owner = pid
      · cases hde : GreetingAccount.try_from_slice a.data with
        | error e =>
          left
          exact ⟨e, by simp [process_cpi, hcpi, hown, hde]⟩
        | ok g =>
          obtain ⟨hlen, hg⟩ := try_from_slice_ok hde
          have hdrop : a.data.drop 4 = [] := by
            rw [← hlen]; exact List.drop_length a.data
          right
          refine ⟨g.counter, by simp [storedCounter, hde], ?_, ?_⟩ <;>
            simp [process_cpi, hcpi, hown, hde,
              GreetingAccount.serializeInto, hlen, hdrop]
      · left
        exact ⟨.IncorrectProgramId, by simp [process_cpi, hcpi, hown]⟩

/-- C7 (amended): in any single processing call on a nonempty account list,
either every account is returned unchanged (and the call can only have
succeeded if it decoded to a Transfer instruction), or the call succeeded
and the targeted (first) account's stored counter `N` was replaced by
exactly `(N + 1) % 2 ^ 32`.  Hence across any sequence of processing calls
the counter changes only through successful Example or CrossProgramInvoke
calls, each adding exactly 1 modulo `2 ^ 32`; it never decreases except for
the u32 wraparound from `2 ^ 32 - 1` to 0 (see the counterexample). -/
theorem counter_step (cpi : CpiOracle) (pid : Nat) (a : AccountInfo)
    (rest : List AccountInfo) (buf : List Nat) :
    ((process_instruction cpi pid (a :: rest) buf).1 = a :: rest ∧
      ((process_instruction cpi pid (a :: rest) buf).2 = .ok () →
        ∃ amt, SolanaInstruction.unpack buf =
          .ok (.TransferInstruction amt))) ∨
    (∃ N, (process_instruction cpi pid (a :: rest) buf).2 = .ok () ∧
      storedCounter a = some N ∧
      (process_instruction cpi pid (a :: rest) buf).1.head? =
        some { a with data := u32ToLeBytes ((N + 1) % 2 ^ 32) }) := by
  cases hu : SolanaInstruction.unpack buf with
  | error e =>
    left
    constructor
    · simp [process_instruction, hu]
    · intro h
      simp [process_instruction, hu] at h
  | ok i =>
    cases i with
    | TransferInstruction amt =>
      left
      refine ⟨?_, fun _ => ⟨amt, rfl⟩⟩
      simp [process_instruction, hu, process_transfer]
    | ExampleInstruction amt =>
      rcases process_example_cases amt pid a rest with ⟨e, he⟩ | ⟨N, hN, he⟩
      · left
        constructor
        · simp [process_instruction, hu, he]
        · intro h
          simp [process_instruction, hu, he] at h
      · right
        exact ⟨N, by simp [process_instruction, hu, he], hN,
          by simp [process_instruction, hu, he]⟩
    | CPIInstruction =>
      rcases process_cpi_cases cpi pid a rest with ⟨e, he⟩ | ⟨N, hN, hok, hhead⟩
      · left
        constructor
        · simp [process_instruction, hu, he]
        · intro h
          simp [process_instruction, hu, he] at h
      · right
        refine ⟨N, ?_, hN, ?_⟩ <;> simp [process_instruction, hu, hok, hhead]

/-- C7 counterexample: a successful Example call against a stored counter of
4294967295 (the u32 maximum) wraps it to 0 — the counter decreased, refuting
"the stored counter only ever increases". -/
theorem counter_wrap_cex :
    storedCounter acctMax = some 4294967295 ∧
    (process_instruction cpiAllocOk 0 [acctMax]
        [0, 9, 9, 9, 9, 9, 9, 9, 9]).2 = .ok () ∧
    (process_instruction cpiAllocOk 0 [acctMax]
        [0, 9, 9, 9, 9, 9, 9, 9, 9]).1.head? =
      some { acctMax with data := [0, 0, 0, 0] } ∧
    storedCounter { acctMax with data := [0, 0, 0, 0] } = some 0 ∧
    (0 : Nat) < 4294967295 :=
  ⟨rfl, rfl, rfl, rfl, by decide⟩
